import Mathlib

/-!
Shallow embedding of the `MarketResearchAgent` pipeline of `src/app.py`.

The two external collaborators are modeled as oracles:
a language-model collaborator `llm : String → Except Err String` mapping the prompt
text to the reply text (or to a raised exception, carried as its message), and a
search collaborator `search : String → Except Err (List ExaResult)` mapping the
query text to a result list (or to a raised exception).  The `st.error` /
`st.warning` calls made inside loops are side effects; they are modeled by
returning the list of recorded messages alongside each stage's value.  The
`datetime.now()` reading made inside `generate_final_proposal` is modeled as an
explicit `now : Date` parameter of the embedded function.

Python strings are modeled as Lean `String`; `str.strip()`, `str.lower()` and
`str.title()` are re-implemented over `String.data` (`pyStrip`, `pyLower`,
`pyTitle`) so that every definition evaluates inside the kernel.  Python dicts
keyed by strings are modeled as insertion-ordered association lists with
overwrite-on-existing-key semantics (`dictInsert`).
-/

/-- The message of a Python exception raised by an external collaborator call. -/
abbrev Err := String

/-- A result object returned by the Exa search collaborator: the code reads
`res.title`, `res.url` and `res.summary`; the service may additionally supply a
published date, which the code never reads. -/
structure ExaResult where
  title : String
  url : String
  summary : String
  published_date : Option String
deriving DecidableEq, Repr

/-- A research insight dict `{"title": ..., "url": ..., "snippet": ...}` as built in
`research_company`.  The optional `published_date` field models the presence of the
`'published_date'` key in the dict (`generate_final_proposal` tests membership of
that key). -/
structure Insight where
  title : String
  url : String
  snippet : String
  published_date : Option String
deriving DecidableEq, Repr

/-- A resource dict `{"url": res.url, "title": res.title}` as built in
`collect_resource_assets`. -/
structure Resource where
  url : String
  title : String
deriving DecidableEq, Repr

/-- Python whitespace for `str.strip()` (ASCII whitespace characters). -/
def pyIsSpace (c : Char) : Bool :=
  c = ' ' || c = '\t' || c = '\n' || c = '\x0d' || c = '\x0b' || c = '\x0c'

/-- Python `str.strip()`: remove leading and trailing whitespace. -/
def pyStrip (s : String) : String :=
  String.mk (((s.data.dropWhile pyIsSpace).reverse.dropWhile pyIsSpace).reverse)

/-- Python `str.lower()` (ASCII case mapping). -/
def pyLower (s : String) : String :=
  String.mk (s.data.map Char.toLower)

/-- One step of Python `str.title()`: an alphabetic character starting a run is
uppercased, later characters of the run are lowercased, other characters are kept
and end the run.  The boolean records whether the previous character was
alphabetic. -/
def pyTitleAux : Bool → List Char → List Char
  | _, [] => []
  | prevAlpha, c :: rest =>
    if c.isAlpha then
      (if prevAlpha then c.toLower else c.toUpper) :: pyTitleAux true rest
    else
      c :: pyTitleAux false rest

/-- Python `str.title()` (ASCII case mapping). -/
def pyTitle (s : String) : String :=
  String.mk (pyTitleAux false s.data)

/-- Whether `needle` occurs at the start of `hay` (Python `str.startswith`, used to
implement the substring test). -/
def listStartsWith : List Char → List Char → Bool
  | [], _ => true
  | _ :: _, [] => false
  | a :: as, b :: bs => a == b && listStartsWith as bs

/-- Python substring membership `needle in hay` on character lists. -/
def listContainsSub (hay needle : List Char) : Bool :=
  (List.range (hay.length + 1)).any (fun i => listStartsWith needle (hay.drop i))

/-- Python substring membership `needle in hay` on strings. -/
def strContainsSub (hay needle : String) : Bool :=
  listContainsSub hay.data needle.data

/-- Python dict insertion `m[k] = v`: overwrite in place when the key is already
present, append a new entry otherwise (insertion order preserved). -/
def dictInsert {α : Type} (m : List (String × α)) (k : String) (v : α) :
    List (String × α) :=
  if k ∈ m.map Prod.fst then
    m.map (fun p => if p.1 = k then (p.1, v) else p)
  else
    m ++ [(k, v)]

/-- The prompt template of `determine_industry` (a triple-quoted f-string). -/
def industry_prompt (company_name : String) : String :=
  "\n        Analyze the company " ++ company_name ++
    " and determine its primary industry.\n        Return only the industry name without any explanation or additional text.\n        Example response format: \"Electric Vehicles\" or \"Cloud Computing\"\n        "

/-- `determine_industry`: sends the prompt to a fresh assistant and returns
`str(industry).strip()`.  An exception raised by the collaborator propagates
(there is no try/except); the reply text is stripped and returned unconditionally,
with no emptiness check. -/
def determine_industry (llm : String → Except Err String) (company_name : String) :
    Except Err String :=
  (llm (industry_prompt company_name)).map pyStrip

/-- The three query templates built in `research_company`. -/
def search_queries (company_name industry : String) : List String :=
  [industry ++ " industry overview and trends",
   company_name ++ " strategic focus and market position",
   industry ++ " technological innovations and future outlook"]

/-- The dict comprehension of `research_company`: each result is mapped to
`{"title": res.title, "url": res.url, "snippet": res.summary}`.  No
`published_date` key is ever created. -/
def toInsight (res : ExaResult) : Insight :=
  { title := res.title, url := res.url, snippet := res.summary, published_date := none }

/-- The `st.error` message recorded for a failed research query. -/
def research_error_msg (query e : String) : String :=
  "Research error for query '" ++ query ++ "': " ++ e

/-- One iteration of the query loop of `research_company`: a successful search call
stores the mapped results under the query key; an exception records an error
message (`st.error`) and the loop continues. -/
def research_step (search : String → Except Err (List ExaResult))
    (acc : List (String × List Insight) × List String) (query : String) :
    List (String × List Insight) × List String :=
  match search query with
  | Except.ok results => (dictInsert acc.1 query (results.map toInsight), acc.2)
  | Except.error e => (acc.1, acc.2 ++ [research_error_msg query e])

/-- The query loop of `research_company`.  Returns the result dict together with
the recorded messages. -/
def research_loop (search : String → Except Err (List ExaResult))
    (queries : List String) : List (String × List Insight) × List String :=
  queries.foldl (research_step search) ([], [])

/-- `research_company`: determines the industry (a hard failure propagates), then
runs the query loop, returning `(research_results, industry)` together with the
recorded error messages. -/
def research_company (llm : String → Except Err String)
    (search : String → Except Err (List ExaResult)) (company_name : String) :
    Except Err ((List (String × List Insight) × List String) × String) := do
  let industry ← determine_industry llm company_name
  pure (research_loop search (search_queries company_name industry), industry)

/-- Hex digits for JSON `\uXXXX` escapes. -/
def jsonHex (n : Nat) : String :=
  String.mk (List.replicate (4 - (Nat.toDigits 16 n).length) '0' ++ Nat.toDigits 16 n)

/-- JSON escaping of one character as performed by `json.dumps` (ASCII input:
quote, backslash and control characters are escaped). -/
def jsonEscapeChar (c : Char) : String :=
  if c = '"' then "\\\""
  else if c = '\\' then "\\\\"
  else if c = '\n' then "\\n"
  else if c = '\x0d' then "\\r"
  else if c = '\t' then "\\t"
  else if c.toNat < 32 then "\\u" ++ jsonHex c.toNat
  else String.mk [c]

/-- A JSON string literal as produced by `json.dumps`. -/
def jsonString (s : String) : String :=
  "\"" ++ String.join (s.data.map jsonEscapeChar) ++ "\""

/-- `json.dumps` of one research-insight dict (keys in insertion order; the
`published_date` key is serialized only when present, which never happens for
dicts built by `research_company`). -/
def jsonInsight (i : Insight) : String :=
  "\x7b\"title\": " ++ jsonString i.title ++ ", \"url\": " ++ jsonString i.url ++
    ", \"snippet\": " ++ jsonString i.snippet ++
    (match i.published_date with
     | some d => ", \"published_date\": " ++ jsonString d
     | none => "") ++ "\x7d"

/-- `json.dumps(research_insights)`: a dict mapping each query to its list of
insight dicts. -/
def jsonInsights (m : List (String × List Insight)) : String :=
  "\x7b" ++
    String.intercalate ", "
      (m.map (fun p =>
        jsonString p.1 ++ ": [" ++ String.intercalate ", " (p.2.map jsonInsight) ++ "]")) ++
    "\x7d"

/-- The prompt template of `generate_use_cases` (a triple-quoted f-string embedding
`json.dumps(research_insights)`). -/
def use_case_prompt (company_name industry : String)
    (research_insights : List (String × List Insight)) : String :=
  "\n        Based on the analysis of " ++ company_name ++ " in the " ++ industry ++
    " industry, generate innovative AI/ML use cases.\n        Research insights: " ++
    jsonInsights research_insights ++
    "\n        Focus on:\n        - Operational efficiency\n        - Customer experience enhancement\n        - Technological innovation\n        Give at least 5 detailed distinct use cases.\n        Avoid giving code or implementation details.\n        Provide specific, actionable recommendations.\n        "

/-- One match attempt of the regex `\d+\.` at the head of the text: a non-empty
maximal digit run followed by a period.  Returns the text after the match.  (The
greedy `\d+` cannot backtrack into a successful shorter match here, because the
character after a shortened digit run is again a digit, not a period.) -/
def matchNumDot (l : List Char) : Option (List Char) :=
  if l.takeWhile Char.isDigit = [] then none
  else
    match l.dropWhile Char.isDigit with
    | '.' :: r => some r
    | _ => none

/-- The scan of `re.split(r'\d+\.', text)`: at each position either a match is
consumed (ending the current segment) or one character is accumulated.  The fuel
argument (instantiated with the text length) makes the recursion structural; every
step consumes at least one character, so the fuel never runs out. -/
def splitNumDotAux : Nat → List Char → List Char → List (List Char)
  | 0, l, acc => [acc.reverse ++ l]
  | _ + 1, [], acc => [acc.reverse]
  | fuel + 1, c :: rest, acc =>
    match matchNumDot (c :: rest) with
    | some r => acc.reverse :: splitNumDotAux fuel r []
    | none => splitNumDotAux fuel rest (c :: acc)

/-- `re.split(r'\d+\.', s)`. -/
def splitNumDot (s : String) : List String :=
  (splitNumDotAux s.data.length s.data []).map String.mk

/-- Whether `re.search(r'\d+\.', s)` would find a match: some suffix of the text
starts with a digit run followed by a period. -/
def hasNumDotMarker (s : String) : Bool :=
  (List.range (s.data.length + 1)).any (fun i => (matchNumDot (s.data.drop i)).isSome)

/-- The list comprehension ending `generate_use_cases`:
`[case.strip() for case in re.split(r'\d+\.', text) if case.strip()]`. -/
def parse_use_cases (text : String) : List String :=
  ((splitNumDot text).map pyStrip).filter (fun c => c ≠ "")

/-- `generate_use_cases`: sends the prompt to a fresh assistant (an exception
propagates: there is no try/except) and parses the reply. -/
def generate_use_cases (llm : String → Except Err String)
    (company_name industry : String)
    (research_insights : List (String × List Insight)) : Except Err (List String) :=
  (llm (use_case_prompt company_name industry research_insights)).map parse_use_cases

/-- The fixed platform list of `collect_resource_assets`. -/
def platforms : List String :=
  ["kaggle.com/datasets", "huggingface.co/datasets", "github.com/datasets"]

/-- The per-platform query `f'"{use_case}" dataset site:{platform}'`. -/
def resource_query (use_case platform : String) : String :=
  "\"" ++ use_case ++ "\" dataset site:" ++ platform

/-- The URL filter of `collect_resource_assets`:
`platform in res.url and any(keyword in res.url.lower() for keyword in ['dataset', 'data'])`. -/
def keepResult (platform : String) (res : ExaResult) : Bool :=
  strContainsSub res.url platform &&
    (strContainsSub (pyLower res.url) "dataset" || strContainsSub (pyLower res.url) "data")

/-- The resource dict built for one kept result. -/
def resourceOf (res : ExaResult) : Resource :=
  { url := res.url, title := res.title }

/-- The `st.warning` message recorded for a failed per-platform search. -/
def resource_warning_msg (use_case e : String) : String :=
  "Resource collection error for '" ++ use_case ++ "': " ++ e

/-- One platform iteration of `collect_resource_assets`: on success the filtered
and mapped results are appended to the accumulated resources; on exception a
warning message is recorded and the loop continues. -/
def platform_step (search : String → Except Err (List ExaResult)) (use_case : String)
    (acc : List Resource × List String) (platform : String) :
    List Resource × List String :=
  match search (resource_query use_case platform) with
  | Except.ok results =>
      (acc.1 ++ (results.filter (keepResult platform)).map resourceOf, acc.2)
  | Except.error e => (acc.1, acc.2 ++ [resource_warning_msg use_case e])

/-- The inner platform loop of `collect_resource_assets` for one use case. -/
def platform_loop (search : String → Except Err (List ExaResult)) (use_case : String)
    (init : List Resource × List String) : List Resource × List String :=
  platforms.foldl (platform_step search use_case) init

/-- The resources accumulated for one use case across the three platforms, in
platform-iteration order (the first component of the inner loop started from an
empty accumulator). -/
def accumulate_resources (search : String → Except Err (List ExaResult))
    (use_case : String) : List Resource :=
  (platform_loop search use_case ([], [])).1

/-- One use-case iteration of `collect_resource_assets`: the resources gathered by
the inner platform loop are truncated to the first 3 and stored under the literal
use-case text. -/
def collect_step (search : String → Except Err (List ExaResult))
    (acc : List (String × List Resource) × List String) (use_case : String) :
    List (String × List Resource) × List String :=
  (dictInsert acc.1 use_case ((platform_loop search use_case ([], acc.2)).1.take 3),
    (platform_loop search use_case ([], acc.2)).2)

/-- `collect_resource_assets`: for each use case, the accumulated resources are
truncated to the first 3 and stored under the literal use-case text; per-platform
failures only record warnings.  Returns the resource dict together with the
recorded warnings. -/
def collect_resource_assets (search : String → Except Err (List ExaResult))
    (use_cases : List String) : List (String × List Resource) × List String :=
  use_cases.foldl (collect_step search) ([], [])

/-- The date components read from `datetime.now()`. -/
structure Date where
  month : Nat
  day : Nat
  year : Nat
deriving DecidableEq, Repr

/-- The `%B` month name. -/
def month_name : Nat → String
  | 1 => "January"
  | 2 => "February"
  | 3 => "March"
  | 4 => "April"
  | 5 => "May"
  | 6 => "June"
  | 7 => "July"
  | 8 => "August"
  | 9 => "September"
  | 10 => "October"
  | 11 => "November"
  | 12 => "December"
  | _ => ""

/-- The `%d` zero-padded day. -/
def pad2 (n : Nat) : String :=
  if n < 10 then "0" ++ toString n else toString n

/-- `strftime('%B %d, %Y')`. -/
def strftime_B_d_Y (d : Date) : String :=
  month_name d.month ++ " " ++ pad2 d.day ++ ", " ++ toString d.year

/-- The `date_str` expression of `generate_final_proposal`: a parenthesized date
suffix when the insight dict has a `published_date` key whose value is not
`'N/A'`, the empty string otherwise. -/
def date_str (insight : Insight) : String :=
  match insight.published_date with
  | some d => if d ≠ "N/A" then " (" ++ d ++ ")" else ""
  | none => ""

/-- The markdown block appended for one insight inside the research section. -/
def renderInsightBlock (insight : Insight) : String :=
  "#### " ++ insight.title ++ date_str insight ++ "\n\n" ++
    insight.snippet ++ "\n\n" ++
    "[Read more](" ++ insight.url ++ ")\n\n" ++
    "---\n\n"

/-- The markdown appended for one research query section. -/
def renderQuerySection (query : String) (insights : List Insight) : String :=
  "### " ++ pyTitle query ++ "\n\n" ++ String.join (insights.map renderInsightBlock)

/-- One resource bullet line. -/
def renderResourceLine (r : Resource) : String :=
  "- [" ++ r.title ++ "](" ++ r.url ++ ")\n"

/-- The markdown block appended for one use case: the datasets sub-list appears
exactly when the resource dict has a non-empty entry under the literal use-case
text. -/
def renderUseCaseBlock (resource_map : List (String × List Resource)) (idx : Nat)
    (use_case : String) : String :=
  "### Use Case " ++ toString idx ++ ": " ++ use_case ++ "\n\n" ++
    (match resource_map.lookup use_case with
     | some rs =>
         if rs ≠ [] then
           "#### Recommended Datasets:\n" ++ String.join (rs.map renderResourceLine)
         else ""
     | none => "") ++
    "\n"

/-- `generate_final_proposal`: builds the markdown document in fixed order.  The
source reads the clock inside the function (`datetime.now().strftime('%B %d, %Y')`);
that ambient reading is the explicit `now` parameter here. -/
def generate_final_proposal (company_name industry : String) (use_cases : List String)
    (resource_map : List (String × List Resource))
    (research_insights : List (String × List Insight)) (now : Date) : String :=
  "# AI Strategy Analysis for " ++ company_name ++ "\n\n" ++
    "## Industry: " ++ industry ++ "\n\n" ++
    "*Generated on " ++ strftime_B_d_Y now ++ "*\n\n" ++
    "## Market Research Insights\n" ++
    String.join (research_insights.map (fun p => renderQuerySection p.1 p.2)) ++
    "## Recommended AI/ML Use Cases\n\n" ++
    String.join ((List.enumFrom 1 use_cases).map
      (fun p => renderUseCaseBlock resource_map p.1 p.2))

/-- The success path of the analysis run in `main`: the four stages in sequence,
yielding the tuple of stage outputs and the final proposal.  An exception raised
by `determine_industry` or `generate_use_cases` propagates and no proposal is
produced. -/
def run_pipeline (llm : String → Except Err String)
    (search : String → Except Err (List ExaResult)) (company_name : String)
    (now : Date) :
    Except Err (String × List (String × List Insight) × List String ×
      List (String × List Resource) × String) := do
  let r ← research_company llm search company_name
  let research_insights := r.1.1
  let industry := r.2
  let use_cases ← generate_use_cases llm company_name industry research_insights
  let resource_map := (collect_resource_assets search use_cases).1
  let proposal :=
    generate_final_proposal company_name industry use_cases resource_map
      research_insights now
  pure (industry, research_insights, use_cases, resource_map, proposal)

/-- Whether an `Except` value is a success (the search call did not raise). -/
def exceptOk {ε α : Type} : Except ε α → Bool
  | Except.ok _ => true
  | Except.error _ => false

/-- First-occurrence deduplication, the key order produced by repeated Python dict
insertion. -/
def dedupFirst (l : List String) : List String :=
  l.foldl (fun ks k => if k ∈ ks then ks else ks ++ [k]) []

/-! ### Helper lemmas -/

theorem sdata_append (a b : String) : (a ++ b).data = a.data ++ b.data := rfl

theorem sappend_empty (s : String) : s ++ "" = s := by
  apply String.ext
  simp [sdata_append]

theorem append_ne_of_last_ne (a b s t : String) (hs : s.data ≠ [])
    (ht : t.data ≠ []) (h : s.data.getLast? ≠ t.data.getLast?) :
    a ++ s ≠ b ++ t := by
  intro heq
  apply h
  have hd : a.data ++ s.data = b.data ++ t.data := by
    rw [← sdata_append, ← sdata_append, heq]
  calc s.data.getLast? = (a.data ++ s.data).getLast? :=
        (List.getLast?_append_of_ne_nil a.data hs).symm
    _ = (b.data ++ t.data).getLast? := by rw [hd]
    _ = t.data.getLast? := List.getLast?_append_of_ne_nil b.data ht

theorem queries_pairwise_ne (company industry : String) :
    industry ++ " industry overview and trends" ≠
        company ++ " strategic focus and market position"
    ∧ industry ++ " industry overview and trends" ≠
        industry ++ " technological innovations and future outlook"
    ∧ company ++ " strategic focus and market position" ≠
        industry ++ " technological innovations and future outlook" := by
  refine ⟨?_, ?_, ?_⟩ <;> apply append_ne_of_last_ne <;> decide

theorem map_fst_dictInsert {α : Type} (m : List (String × α)) (k : String) (v : α) :
    (dictInsert m k v).map Prod.fst =
      if k ∈ m.map Prod.fst then m.map Prod.fst else m.map Prod.fst ++ [k] := by
  unfold dictInsert
  by_cases hk : k ∈ m.map Prod.fst
  · rw [if_pos hk, if_pos hk, List.map_map]
    apply List.map_congr_left
    intro p _
    by_cases hp : p.1 = k <;> simp [Function.comp, hp]
  · rw [if_neg hk, if_neg hk]
    simp

theorem length_dictInsert {α : Type} (m : List (String × α)) (k : String) (v : α) :
    (dictInsert m k v).length =
      if k ∈ m.map Prod.fst then m.length else m.length + 1 := by
  unfold dictInsert
  split <;> simp_all

theorem mem_dictInsert {α : Type} (m : List (String × α)) (k : String) (v : α)
    (p : String × α) (hp : p ∈ dictInsert m k v) : p ∈ m ∨ p = (k, v) := by
  unfold dictInsert at hp
  split at hp
  · rw [List.mem_map] at hp
    obtain ⟨q, hq, hqp⟩ := hp
    by_cases h : q.1 = k
    · right
      rw [if_pos h] at hqp
      rw [← hqp, h]
    · left
      rw [if_neg h] at hqp
      rw [← hqp]
      exact hq
  · rw [List.mem_append, List.mem_singleton] at hp
    exact hp

theorem lookup_mem {α : Type} (m : List (String × α)) (k : String) (v : α)
    (h : m.lookup k = some v) : (k, v) ∈ m := by
  induction m with
  | nil => simp [List.lookup] at h
  | cons a t ih =>
    rw [List.lookup] at h
    by_cases hk : k == a.1
    · simp [hk] at h
      have hka : k = a.1 := by simpa using hk
      cases a with
      | mk a1 a2 =>
        simp at hka h
        subst hka
        subst h
        exact List.mem_cons_self _ _
    · simp [hk] at h
      exact List.mem_cons_of_mem _ (ih h)

theorem lookup_of_mem_keys {α : Type} (m : List (String × α)) (k : String)
    (h : k ∈ m.map Prod.fst) : ∃ v, m.lookup k = some v := by
  induction m with
  | nil => simp at h
  | cons a t ih =>
    rw [List.map_cons, List.mem_cons] at h
    by_cases hk : k = a.1
    · exact ⟨a.2, by simp [List.lookup, hk]⟩
    · have : k ∈ t.map Prod.fst := by
        rcases h with h | h
        · exact absurd h hk
        · exact h
      obtain ⟨v, hv⟩ := ih this
      refine ⟨v, ?_⟩
      rw [List.lookup]
      have : (k == a.1) = false := by simpa using hk
      rw [this]
      · exact hv

theorem research_loop_three (search : String → Except Err (List ExaResult))
    (q1 q2 q3 : String) (h12 : q1 ≠ q2) (h13 : q1 ≠ q3) (h23 : q2 ≠ q3) :
    (∀ q ∈ [q1, q2, q3],
        (q ∈ (research_loop search [q1, q2, q3]).1.map Prod.fst ↔
          exceptOk (search q) = true))
    ∧ (([q1, q2, q3].filter (fun q => !exceptOk (search q))).length = 1 →
        (research_loop search [q1, q2, q3]).1.length = 2
        ∧ (research_loop search [q1, q2, q3]).2.length = 1) := by
  rcases hs1 : search q1 with e1 | r1 <;> rcases hs2 : search q2 with e2 | r2 <;>
    rcases hs3 : search q3 with e3 | r3 <;>
      simp [research_loop, research_step, dictInsert, exceptOk, hs1, hs2, hs3,
        h12, h13, h23, Ne.symm h12, Ne.symm h13, Ne.symm h23]

theorem research_fold_bound (search : String → Except Err (List ExaResult))
    (qs : List String) :
    ∀ (m : List (String × List Insight)) (w : List String),
      ((qs.foldl (research_step search) (m, w)).1.length ≤ m.length + qs.length)
      ∧ (∀ k ∈ (qs.foldl (research_step search) (m, w)).1.map Prod.fst,
          k ∈ m.map Prod.fst ∨ k ∈ qs) := by
  induction qs with
  | nil =>
    intro m w
    simp
  | cons q qs ih =>
    intro m w
    rw [List.foldl_cons]
    rcases hq : search q with e | rs
    · have hstep : research_step search (m, w) q = (m, w ++ [research_error_msg q e]) := by
        simp [research_step, hq]
      rw [hstep]
      refine ⟨?_, ?_⟩
      · have h1 := (ih m (w ++ [research_error_msg q e])).1
        simp only [List.length_cons]
        omega
      · intro k hk
        rcases (ih m (w ++ [research_error_msg q e])).2 k hk with h | h
        · exact Or.inl h
        · exact Or.inr (List.mem_cons_of_mem _ h)
    · have hstep : research_step search (m, w) q =
          (dictInsert m q (rs.map toInsight), w) := by
        simp [research_step, hq]
      rw [hstep]
      have hlen : (dictInsert m q (rs.map toInsight)).length ≤ m.length + 1 := by
        rw [length_dictInsert]
        split <;> omega
      refine ⟨?_, ?_⟩
      · have h1 := (ih (dictInsert m q (rs.map toInsight)) w).1
        simp only [List.length_cons]
        omega
      · intro k hk
        rcases (ih (dictInsert m q (rs.map toInsight)) w).2 k hk with h | h
        · rw [map_fst_dictInsert] at h
          by_cases hcond : q ∈ m.map Prod.fst
          · rw [if_pos hcond] at h
            exact Or.inl h
          · rw [if_neg hcond] at h
            rcases List.mem_append.mp h with h | h
            · exact Or.inl h
            · rw [List.mem_singleton] at h
              subst h
              exact Or.inr (List.mem_cons_self _ _)
        · exact Or.inr (List.mem_cons_of_mem _ h)

theorem platform_fold_fst_w (search : String → Except Err (List ExaResult))
    (uc : String) (l : List String) :
    ∀ (r : List Resource) (w w' : List String),
      (l.foldl (platform_step search uc) (r, w)).1 =
        (l.foldl (platform_step search uc) (r, w')).1 := by
  induction l with
  | nil =>
    intro r w w'
    rfl
  | cons p l ih =>
    intro r w w'
    rw [List.foldl_cons, List.foldl_cons]
    rcases hp : search (resource_query uc p) with e | rs
    · have h1 : platform_step search uc (r, w) p =
          (r, w ++ [resource_warning_msg uc e]) := by
        simp [platform_step, hp]
      have h2 : platform_step search uc (r, w') p =
          (r, w' ++ [resource_warning_msg uc e]) := by
        simp [platform_step, hp]
      rw [h1, h2]
      exact ih r _ _
    · have h1 : platform_step search uc (r, w) p =
          (r ++ (rs.filter (keepResult p)).map resourceOf, w) := by
        simp [platform_step, hp]
      have h2 : platform_step search uc (r, w') p =
          (r ++ (rs.filter (keepResult p)).map resourceOf, w') := by
        simp [platform_step, hp]
      rw [h1, h2]
      exact ih _ _ _

theorem platform_loop_fst (search : String → Except Err (List ExaResult))
    (uc : String) (w : List String) :
    (platform_loop search uc ([], w)).1 = accumulate_resources search uc := by
  unfold accumulate_resources platform_loop
  exact platform_fold_fst_w search uc platforms [] w []

theorem collect_fold_values (search : String → Except Err (List ExaResult))
    (ucs : List String) :
    ∀ (m : List (String × List Resource)) (w : List String),
      (∀ p ∈ m, p.2 = (accumulate_resources search p.1).take 3) →
      ∀ p ∈ (ucs.foldl (collect_step search) (m, w)).1,
        p.2 = (accumulate_resources search p.1).take 3 := by
  induction ucs with
  | nil =>
    intro m w hm p hp
    exact hm p hp
  | cons uc ucs ih =>
    intro m w hm p hp
    rw [List.foldl_cons] at hp
    have hcs : collect_step search (m, w) uc =
        (dictInsert m uc ((accumulate_resources search uc).take 3),
          (platform_loop search uc ([], w)).2) := by
      unfold collect_step
      rw [platform_loop_fst]
    rw [hcs] at hp
    refine ih _ _ ?_ p hp
    intro p' hp'
    rcases mem_dictInsert _ _ _ _ hp' with h | h
    · exact hm p' h
    · rw [h]

theorem collect_fold_keys (search : String → Except Err (List ExaResult))
    (ucs : List String) :
    ∀ (m : List (String × List Resource)) (w : List String),
      ((ucs.foldl (collect_step search) (m, w)).1).map Prod.fst =
        ucs.foldl (fun ks k => if k ∈ ks then ks else ks ++ [k]) (m.map Prod.fst) := by
  induction ucs with
  | nil =>
    intro m w
    rfl
  | cons uc ucs ih =>
    intro m w
    rw [List.foldl_cons, List.foldl_cons]
    have hcs : collect_step search (m, w) uc =
        (dictInsert m uc ((platform_loop search uc ([], w)).1.take 3),
          (platform_loop search uc ([], w)).2) := rfl
    rw [hcs, ih]
    congr 1
    rw [map_fst_dictInsert]

theorem mem_dedup_fold (l : List String) :
    ∀ (ks : List String) (x : String),
      x ∈ l.foldl (fun ks k => if k ∈ ks then ks else ks ++ [k]) ks ↔
        x ∈ ks ∨ x ∈ l := by
  induction l with
  | nil =>
    intro ks x
    simp
  | cons k l ih =>
    intro ks x
    rw [List.foldl_cons]
    by_cases hk : k ∈ ks
    · rw [if_pos hk, ih]
      constructor
      · rintro (h | h)
        · exact Or.inl h
        · exact Or.inr (List.mem_cons_of_mem _ h)
      · rintro (h | h)
        · exact Or.inl h
        · rcases List.mem_cons.mp h with h | h
          · subst h
            exact Or.inl hk
          · exact Or.inr h
    · rw [if_neg hk, ih]
      simp only [List.mem_append, List.mem_singleton, List.mem_cons]
      tauto

theorem nodup_dedup_fold (l : List String) :
    ∀ ks : List String, ks.Nodup →
      (l.foldl (fun ks k => if k ∈ ks then ks else ks ++ [k]) ks).Nodup := by
  induction l with
  | nil =>
    intro ks h
    exact h
  | cons k l ih =>
    intro ks h
    rw [List.foldl_cons]
    by_cases hk : k ∈ ks
    · rw [if_pos hk]
      exact ih ks h
    · rw [if_neg hk]
      apply ih
      simp [List.nodup_append, h, hk]

theorem accumulate_resources_error (e : Err) (uc : String) :
    accumulate_resources (fun _ => Except.error e) uc = [] := rfl

theorem matchNumDot_nil : matchNumDot [] = none := rfl

theorem splitNumDotAux_no_marker (fuel : Nat) :
    ∀ (l acc : List Char), (∀ i, matchNumDot (l.drop i) = none) →
      splitNumDotAux fuel l acc = [acc.reverse ++ l] := by
  induction fuel with
  | zero =>
    intro l acc _
    rfl
  | succ fuel ih =>
    intro l acc h
    cases l with
    | nil => simp [splitNumDotAux]
    | cons c rest =>
      have h0 : matchNumDot (c :: rest) = none := by simpa using h 0
      have hrest : ∀ i, matchNumDot (rest.drop i) = none := by
        intro i
        simpa [List.drop_succ_cons] using h (i + 1)
      rw [show splitNumDotAux (fuel + 1) (c :: rest) acc =
            (match matchNumDot (c :: rest) with
             | some r => acc.reverse :: splitNumDotAux fuel r []
             | none => splitNumDotAux fuel rest (c :: acc)) from rfl]
      rw [h0]
      rw [ih rest (c :: acc) hrest]
      simp

theorem no_marker_drop (s : String) (h : hasNumDotMarker s = false) :
    ∀ i, matchNumDot (s.data.drop i) = none := by
  intro i
  by_cases hi : i ≤ s.data.length
  · rw [hasNumDotMarker, List.any_eq_false] at h
    have h2 := h i (List.mem_range.mpr (by omega))
    simpa using h2
  · rw [List.drop_eq_nil_of_le (by omega)]
    exact matchNumDot_nil

theorem parse_no_marker (s : String) (h : hasNumDotMarker s = false) :
    parse_use_cases s = if pyStrip s = "" then [] else [pyStrip s] := by
  unfold parse_use_cases splitNumDot
  rw [splitNumDotAux_no_marker s.data.length s.data [] (no_marker_drop s h)]
  by_cases hx : pyStrip s = ""
  · simp [List.filter, hx]
  · simp [List.filter, hx]

theorem listStartsWith_iff (needle : List Char) :
    ∀ l : List Char, listStartsWith needle l = true ↔ ∃ r, l = needle ++ r := by
  induction needle with
  | nil =>
    intro l
    simp [listStartsWith]
  | cons a as ih =>
    intro l
    cases l with
    | nil =>
      constructor
      · intro h
        simp [listStartsWith] at h
      · rintro ⟨r, hr⟩
        simp at hr
    | cons b bs =>
      show ((a == b) && listStartsWith as bs) = true ↔ ∃ r, b :: bs = a :: as ++ r
      rw [Bool.and_eq_true, beq_iff_eq, ih bs]
      constructor
      · rintro ⟨hab, r, hr⟩
        exact ⟨r, by rw [List.cons_append, hab, hr]⟩
      · rintro ⟨r, hr⟩
        rw [List.cons_append] at hr
        injection hr with h1 h2
        exact ⟨h1.symm, r, h2⟩

theorem listContainsSub_iff (hay needle : List Char) :
    listContainsSub hay needle = true ↔ ∃ pre suf, hay = pre ++ needle ++ suf := by
  unfold listContainsSub
  rw [List.any_eq_true]
  constructor
  · rintro ⟨i, _, hsw⟩
    rw [listStartsWith_iff] at hsw
    obtain ⟨r, hr⟩ := hsw
    refine ⟨hay.take i, r, ?_⟩
    calc hay = hay.take i ++ hay.drop i := (List.take_append_drop i hay).symm
      _ = hay.take i ++ (needle ++ r) := by rw [hr]
      _ = hay.take i ++ needle ++ r := by rw [List.append_assoc]
  · rintro ⟨pre, suf, h⟩
    subst h
    refine ⟨pre.length, ?_, ?_⟩
    · rw [List.mem_range]
      simp [List.length_append]
      omega
    · rw [listStartsWith_iff]
      refine ⟨suf, ?_⟩
      rw [List.append_assoc, List.drop_left]

theorem strContainsSub_iff (hay needle : String) :
    strContainsSub hay needle = true ↔
      ∃ pre suf, hay.data = pre ++ needle.data ++ suf :=
  listContainsSub_iff hay.data needle.data

theorem keepResult_iff_aux (platform : String) (res : ExaResult) :
    keepResult platform res = true ↔
      ((∃ pre suf, res.url.data = pre ++ platform.data ++ suf) ∧
        ((∃ pre suf, (pyLower res.url).data = pre ++ "dataset".data ++ suf) ∨
         (∃ pre suf, (pyLower res.url).data = pre ++ "data".data ++ suf))) := by
  unfold keepResult
  rw [Bool.and_eq_true, Bool.or_eq_true, strContainsSub_iff, strContainsSub_iff,
    strContainsSub_iff]

theorem sdata_empty : ("" : String).data = [] := rfl

/-! ### Claim theorems -/

/-- C1 counterexample: with every caller-supplied argument of
`generate_final_proposal` (company, industry, use cases, resource map, insights)
held identical, the produced document still differs across two ambient clock
readings.  The generation timestamp is read from `datetime.now()` inside the
function — it is not an argument the caller passes — so the assembler is not a
pure function of the claimed input tuple with an explicit timestamp argument. -/
theorem generate_final_proposal_not_pure_of_declared_inputs :
    generate_final_proposal "Acme" "Robotics" [] [] [] ⟨1, 1, 2024⟩ ≠
      generate_final_proposal "Acme" "Robotics" [] [] [] ⟨2, 1, 2024⟩ := by decide

/-- C1 amended: the assembler is deterministic given the ambient clock reading.
Modeling the internal `datetime.now()` reading as an explicit parameter, any two
calls with identical inputs whose clock readings format to the same
`'%B %d, %Y'` string produce byte-identical markdown — the clock influences the
document only through that formatted string.  (In the source the timestamp is
read inside the function rather than passed by the caller, which is what the
counterexample exhibits.) -/
theorem generate_final_proposal_deterministic (company industry : String)
    (use_cases : List String) (resource_map : List (String × List Resource))
    (research_insights : List (String × List Insight)) (d1 d2 : Date)
    (h : strftime_B_d_Y d1 = strftime_B_d_Y d2) :
    generate_final_proposal company industry use_cases resource_map
        research_insights d1 =
      generate_final_proposal company industry use_cases resource_map
        research_insights d2 := by
  unfold generate_final_proposal
  rw [h]

/-- C1 witness: two distinct clock readings with the same formatted date give
byte-identical documents. -/
theorem generate_final_proposal_deterministic_witness :
    generate_final_proposal "Acme" "Robotics" [] [] [] ⟨0, 5, 2024⟩ =
      generate_final_proposal "Acme" "Robotics" [] [] [] ⟨13, 5, 2024⟩ :=
  generate_final_proposal_deterministic "Acme" "Robotics" [] [] []
    ⟨0, 5, 2024⟩ ⟨13, 5, 2024⟩ (by decide)

/-- C2 counterexample: when the LLM collaborator returns empty text,
classification does not fail — `determine_industry` returns the empty string as
the industry label, and `research_company` proceeds with it (the pipeline
continues), contradicting the claim that an empty reply is a hard failure with no
label returned. -/
theorem determine_industry_empty_reply_cex :
    determine_industry (fun _ => Except.ok "") "Acme" = Except.ok ""
    ∧ exceptOk (research_company (fun _ => Except.ok "")
        (fun _ => Except.ok []) "Acme") = true := by
  exact ⟨rfl, rfl⟩

/-- C2 amended: if the LLM collaborator raises, the exception propagates out of
`determine_industry` uncaught, so no industry label is produced; but if the
collaborator returns text — empty text included — classification succeeds and
returns the stripped reply as the label: an empty reply yields the empty-string
label rather than a failure (no emptiness check exists in the code). -/
theorem determine_industry_behavior (llm : String → Except Err String)
    (company : String) :
    (∀ e, llm (industry_prompt company) = Except.error e →
        determine_industry llm company = Except.error e)
    ∧ (∀ t, llm (industry_prompt company) = Except.ok t →
        determine_industry llm company = Except.ok (pyStrip t)) := by
  constructor <;> intro x hx <;> simp [determine_industry, hx, Except.map]

/-- C2 witness: a raising collaborator makes classification propagate the
exception. -/
theorem determine_industry_behavior_witness :
    determine_industry (fun _ => Except.error "timeout") "Acme" =
      Except.error "timeout" :=
  (determine_industry_behavior (fun _ => Except.error "timeout") "Acme").1
    "timeout" rfl

/-- C3 counterexample: a search result carrying a published date is mapped by the
research stage to an insight record with no published date — the dict
comprehension keeps only title, url and snippet, so the date supplied by the
search service is dropped and never rendered beside the title. -/
theorem research_mapping_drops_date_cex :
    (toInsight ⟨"T", "http://u", "S", some "2024-05-01"⟩).published_date = none
    ∧ renderInsightBlock (toInsight ⟨"T", "http://u", "S", some "2024-05-01"⟩) =
        "#### T\n\nS\n\n[Read more](http://u)\n\n---\n\n" := by
  exact ⟨rfl, by decide⟩

/-- C3 amended: each search result is mapped to a record carrying its title, url
and summary (stored under the key "snippet"); a published date supplied by the
search service is not carried over, so the assembler — which renders a
parenthesized publish date beside the result title exactly when a record carries
a date other than 'N/A' — never renders a date for research-stage records. -/
theorem research_insight_date_handling :
    (∀ res : ExaResult,
        toInsight res = ⟨res.title, res.url, res.summary, none⟩
        ∧ renderInsightBlock (toInsight res) =
            "#### " ++ res.title ++ "\n\n" ++ res.summary ++ "\n\n" ++
              "[Read more](" ++ res.url ++ ")\n\n" ++ "---\n\n")
    ∧ (∀ t u sn d, d ≠ "N/A" →
        renderInsightBlock ⟨t, u, sn, some d⟩ =
          "#### " ++ t ++ " (" ++ d ++ ")" ++ "\n\n" ++ sn ++ "\n\n" ++
            "[Read more](" ++ u ++ ")\n\n" ++ "---\n\n")
    ∧ (∀ t u sn, renderInsightBlock ⟨t, u, sn, some "N/A"⟩ =
        "#### " ++ t ++ "\n\n" ++ sn ++ "\n\n" ++
          "[Read more](" ++ u ++ ")\n\n" ++ "---\n\n") := by
  refine ⟨fun res => ⟨rfl, ?_⟩, fun t u sn d hd => ?_, fun t u sn => ?_⟩
  · apply String.ext
    simp [renderInsightBlock, date_str, toInsight, sdata_append, sdata_empty]
  · apply String.ext
    simp [renderInsightBlock, date_str, hd, sdata_append, sdata_empty]
  · apply String.ext
    simp [renderInsightBlock, date_str, sdata_append, sdata_empty]

/-- C3 witness: a record that does carry a publish date (other than 'N/A') has it
rendered beside the title. -/
theorem research_insight_date_handling_witness :
    renderInsightBlock ⟨"T", "http://u", "S", some "2024-05-01"⟩ =
      "#### " ++ "T" ++ " (" ++ "2024-05-01" ++ ")" ++ "\n\n" ++ "S" ++ "\n\n" ++
        "[Read more](" ++ "http://u" ++ ")\n\n" ++ "---\n\n" :=
  research_insight_date_handling.2.1 "T" "http://u" "S" "2024-05-01" (by decide)

/-- C4: for every outcome of the three per-query search calls, a query is a key of
the research map exactly when its search call succeeded — a failed query is
absent, never present with an empty list — and the remaining queries still
execute; when exactly one of the three calls fails, the loop returns a 2-entry
map and records exactly one diagnostic message (the `st.error` call; the loop
itself is total, so the research stage completes and the pipeline does not
abort). -/
theorem research_partial_failure (company industry : String)
    (search : String → Except Err (List ExaResult)) :
    (∀ q ∈ search_queries company industry,
        (q ∈ (research_loop search (search_queries company industry)).1.map Prod.fst ↔
          exceptOk (search q) = true))
    ∧ (((search_queries company industry).filter
          (fun q => !exceptOk (search q))).length = 1 →
        (research_loop search (search_queries company industry)).1.length = 2
        ∧ (research_loop search (search_queries company industry)).2.length = 1) := by
  obtain ⟨h12, h13, h23⟩ := queries_pairwise_ne company industry
  exact research_loop_three search _ _ _ h12 h13 h23

/-- C4 witness: with a search behavior that fails on exactly the first Acme
Robotics query, the stage yields a 2-entry map and one recorded message. -/
theorem research_partial_failure_witness :
    (research_loop
        (fun q => if q = "Industrial Robotics industry overview and trends"
          then Except.error "boom" else Except.ok [])
        (search_queries "Acme Robotics" "Industrial Robotics")).1.length = 2
    ∧ (research_loop
        (fun q => if q = "Industrial Robotics industry overview and trends"
          then Except.error "boom" else Except.ok [])
        (search_queries "Acme Robotics" "Industrial Robotics")).2.length = 1 :=
  (research_partial_failure "Acme Robotics" "Industrial Robotics"
    (fun q => if q = "Industrial Robotics industry overview and trends"
      then Except.error "boom" else Except.ok [])).2 (by decide)

/-- C5: the three research queries are exactly the fixed templates instantiated
with company and industry (checked on the Acme Robotics / Industrial Robotics
example), and for every company, industry and search behavior the research map
has at most 3 keys, each drawn from the issued query list. -/
theorem research_queries_exact :
    search_queries "Acme Robotics" "Industrial Robotics" =
      ["Industrial Robotics industry overview and trends",
       "Acme Robotics strategic focus and market position",
       "Industrial Robotics technological innovations and future outlook"]
    ∧ ∀ (company industry : String) (search : String → Except Err (List ExaResult)),
        (research_loop search (search_queries company industry)).1.length ≤ 3
        ∧ ∀ k ∈ (research_loop search (search_queries company industry)).1.map Prod.fst,
            k ∈ search_queries company industry := by
  refine ⟨by decide, fun company industry search => ⟨?_, ?_⟩⟩
  · have h := (research_fold_bound search (search_queries company industry) [] []).1
    have hq : (search_queries company industry).length = 3 := rfl
    rw [hq] at h
    simp only [List.length_nil, Nat.zero_add] at h
    rw [research_loop]
    exact h
  · intro k hk
    rw [research_loop] at hk
    rcases (research_fold_bound search (search_queries company industry) [] []).2 k hk
        with h | h
    · simp at h
    · exact h

/-- C5 witness: with an always-successful search, the first template query is a
key of the research map and is a member of the issued query list. -/
theorem research_queries_exact_witness :
    "B industry overview and trends" ∈ search_queries "A" "B" :=
  (research_queries_exact.2 "A" "B" (fun _ => Except.ok [])).2
    "B industry overview and trends" (by decide)

/-- C6 counterexample: a whitespace-only LLM response contains no numbered-list
marker, yet parsing returns the empty sequence rather than the claimed
one-element sequence holding the trimmed response: the trimmed segment is empty
and the comprehension's filter discards it. -/
theorem parse_use_cases_blank_cex :
    hasNumDotMarker " " = false ∧ pyStrip " " = "" ∧ parse_use_cases " " = []
    ∧ parse_use_cases " " ≠ [pyStrip " "] := by
  exact ⟨by decide, by decide, by decide, by decide⟩

/-- C6 amended: the generator splits the reply on `\d+\.` markers, strips each
segment and discards empty segments — "1. Improve routing. 2. Predict churn."
parses to ["Improve routing.", "Predict churn."]; a reply containing no marker
parses to the one-element sequence holding the stripped reply when that is
non-empty, and to the empty sequence when the reply strips to empty text. -/
theorem parse_use_cases_spec :
    parse_use_cases "1. Improve routing. 2. Predict churn." =
      ["Improve routing.", "Predict churn."]
    ∧ (∀ s : String, hasNumDotMarker s = false → pyStrip s ≠ "" →
        parse_use_cases s = [pyStrip s])
    ∧ (∀ s : String, hasNumDotMarker s = false → pyStrip s = "" →
        parse_use_cases s = []) := by
  refine ⟨by decide, fun s h hne => ?_, fun s h he => ?_⟩
  · rw [parse_no_marker s h, if_neg hne]
  · rw [parse_no_marker s h, if_pos he]

/-- C6 witness: a marker-free reply parses to the single stripped segment. -/
theorem parse_use_cases_spec_witness :
    parse_use_cases "A single unified recommendation engine." =
      [pyStrip "A single unified recommendation engine."] :=
  parse_use_cases_spec.2.1 "A single unified recommendation engine."
    (by decide) (by decide)

/-- C7: the resource collector keeps a search result for a platform exactly when
the result URL contains the platform string as a substring and the lowercased URL
contains a dataset-indicating token ("dataset" or "data"); on the claimed
examples, url kaggle.com/datasets/x/robotics-data is kept and url
kaggle.com/notebooks/x is discarded for platform kaggle.com/datasets, and a full
collector run on those two results stores exactly the kept one. -/
theorem resource_filter_iff :
    (∀ (platform : String) (res : ExaResult),
        keepResult platform res = true ↔
          ((∃ pre suf, res.url.data = pre ++ platform.data ++ suf) ∧
            ((∃ pre suf, (pyLower res.url).data = pre ++ "dataset".data ++ suf) ∨
             (∃ pre suf, (pyLower res.url).data = pre ++ "data".data ++ suf))))
    ∧ keepResult "kaggle.com/datasets"
        ⟨"t1", "kaggle.com/datasets/x/robotics-data", "s", none⟩ = true
    ∧ keepResult "kaggle.com/datasets"
        ⟨"t2", "kaggle.com/notebooks/x", "s", none⟩ = false
    ∧ (collect_resource_assets
        (fun q => if q = resource_query "uc" "kaggle.com/datasets"
          then Except.ok [⟨"t1", "kaggle.com/datasets/x/robotics-data", "s", none⟩,
                          ⟨"t2", "kaggle.com/notebooks/x", "s", none⟩]
          else Except.error "down") ["uc"]).1 =
      [("uc", [⟨"kaggle.com/datasets/x/robotics-data", "t1"⟩])] := by
  exact ⟨keepResult_iff_aux, by decide, by decide, by decide⟩

/-- C8: every entry of the resource map equals the first 3 of the filtered
results accumulated across the three platforms in platform-iteration order, and
in particular has length at most 3 — regardless of how many platforms matched. -/
theorem resource_cap (search : String → Except Err (List ExaResult))
    (use_cases : List String) (uc : String) (rs : List Resource)
    (h : (collect_resource_assets search use_cases).1.lookup uc = some rs) :
    rs = (accumulate_resources search uc).take 3 ∧ rs.length ≤ 3 := by
  have hmem := lookup_mem _ _ _ h
  rw [collect_resource_assets] at hmem
  have hval := collect_fold_values search use_cases [] []
      (by intro p hp; simp at hp) (uc, rs) hmem
  have hval' : rs = (accumulate_resources search uc).take 3 := hval
  refine ⟨hval', ?_⟩
  rw [hval']
  apply List.length_take_le

/-- C8 witness: with every platform search failing, the lone use case maps to the
empty list, which equals the truncated empty accumulation and has length ≤ 3. -/
theorem resource_cap_witness :
    ([] : List Resource) =
      (accumulate_resources (fun _ => Except.error "down") "a").take 3
    ∧ ([] : List Resource).length ≤ 3 :=
  resource_cap (fun _ => Except.error "down") ["a"] "a" [] (by decide)

/-- C9: an LLM failure during use-case generation is stage-fatal — when the
research stage has succeeded and the collaborator call for the use-case prompt
raises, the exception propagates out of `generate_use_cases` uncaught and the
whole run yields that error; no proposal value, partial or otherwise, is
produced. -/
theorem use_case_failure_aborts (llm : String → Except Err String)
    (search : String → Except Err (List ExaResult)) (company : String) (now : Date)
    (ins : List (String × List Insight)) (ws : List String) (industry : String)
    (e : Err)
    (h1 : research_company llm search company = Except.ok ((ins, ws), industry))
    (h2 : llm (use_case_prompt company industry ins) = Except.error e) :
    run_pipeline llm search company now = Except.error e
    ∧ ∀ out, run_pipeline llm search company now ≠ Except.ok out := by
  have hrun : run_pipeline llm search company now = Except.error e := by
    simp only [run_pipeline, h1, generate_use_cases, h2, Except.map, bind,
      Except.bind]
  refine ⟨hrun, ?_⟩
  intro out hout
  rw [hrun] at hout
  exact Except.noConfusion hout

set_option maxRecDepth 100000 in
/-- C9 witness: a collaborator that classifies successfully but raises on the
use-case prompt makes the whole run fail with that error. -/
theorem use_case_failure_aborts_witness :
    run_pipeline
        (fun p => if p = industry_prompt "A" then Except.ok "Tech"
          else Except.error "quota")
        (fun _ => Except.ok []) "A" ⟨1, 1, 2024⟩ = Except.error "quota" :=
  (use_case_failure_aborts
      (fun p => if p = industry_prompt "A" then Except.ok "Tech"
        else Except.error "quota")
      (fun _ => Except.ok []) "A" ⟨1, 1, 2024⟩
      [("Tech industry overview and trends", []),
       ("A strategic focus and market position", []),
       ("Tech technological innovations and future outlook", [])]
      [] "Tech" "quota" (by rfl) (by rfl)).1

/-- C10: the resource map's key list is exactly the first-occurrence
deduplication of the input use-case list — its keys are duplicate-free and their
membership coincides with membership in the input — every input use case has an
entry, and when every platform search fails the entry is the empty list: resource
absence is observable as an empty entry, not as key absence. -/
theorem resource_map_keys :
    (∀ (search : String → Except Err (List ExaResult)) (use_cases : List String),
        (collect_resource_assets search use_cases).1.map Prod.fst =
          dedupFirst use_cases)
    ∧ (∀ use_cases : List String,
        (∀ x, x ∈ dedupFirst use_cases ↔ x ∈ use_cases)
        ∧ (dedupFirst use_cases).Nodup)
    ∧ (∀ (search : String → Except Err (List ExaResult)) (use_cases : List String)
          (uc : String), uc ∈ use_cases →
        ∃ rs, (collect_resource_assets search use_cases).1.lookup uc = some rs)
    ∧ (∀ (e : Err) (use_cases : List String) (uc : String), uc ∈ use_cases →
        (collect_resource_assets (fun _ => Except.error e) use_cases).1.lookup uc =
          some []) := by
  have hkeys : ∀ (search : String → Except Err (List ExaResult))
      (use_cases : List String),
      (collect_resource_assets search use_cases).1.map Prod.fst =
        dedupFirst use_cases := by
    intro search use_cases
    rw [collect_resource_assets, dedupFirst]
    exact collect_fold_keys search use_cases [] []
  have hmem : ∀ (use_cases : List String) (x : String),
      x ∈ dedupFirst use_cases ↔ x ∈ use_cases := by
    intro use_cases x
    rw [dedupFirst, mem_dedup_fold]
    simp
  have hsome : ∀ (search : String → Except Err (List ExaResult))
      (use_cases : List String) (uc : String), uc ∈ use_cases →
      ∃ rs, (collect_resource_assets search use_cases).1.lookup uc = some rs := by
    intro search use_cases uc huc
    apply lookup_of_mem_keys
    rw [hkeys]
    exact (hmem use_cases uc).mpr huc
  refine ⟨hkeys, fun use_cases => ⟨hmem use_cases, ?_⟩, hsome, ?_⟩
  · rw [dedupFirst]
    exact nodup_dedup_fold use_cases [] List.nodup_nil
  · intro e use_cases uc huc
    obtain ⟨rs, hrs⟩ := hsome (fun _ => Except.error e) use_cases uc huc
    have hmem2 := lookup_mem _ _ _ hrs
    rw [collect_resource_assets] at hmem2
    have hval := collect_fold_values (fun _ => Except.error e) use_cases [] []
        (by intro p hp; simp at hp) (uc, rs) hmem2
    rw [accumulate_resources_error] at hval
    simp only [List.take_nil] at hval
    rw [hrs, hval]

/-- C10 witness: with all platform searches failing, the use case is still a key
and maps to the empty resource list. -/
theorem resource_map_keys_witness :
    (collect_resource_assets (fun _ => Except.error "down") ["a"]).1.lookup "a" =
      some [] :=
  resource_map_keys.2.2.2 "down" ["a"] "a" (by decide)
